import Mathlib

/-!
# MMUART interrupt example on hart 2 (`u54_2.c`) and the hart software-interrupt handlers

A shallow embedding of the interrupt handlers and of the main loop of
`mpfs-mmuart-interrupt/src/application/hart2/u54_2.c`, and of the software-interrupt
handler of `u54_4.c`.

Machine integers are natural numbers reduced explicitly: `uint8_t` modulo 256,
`uint32_t` modulo 4294967296, `uint64_t` modulo 18446744073709551616.  Bytes are
natural numbers below 256.  The memory behind a `const uint8_t *` is the list of the bytes
that start at the pointer, and `none` is the null pointer.

The MSS UART driver (`mss_uart.c`), the HAL (`mss_hal.h`: `ASSERT`, `read_csr`,
`clear_soft_interrupt`, `raise_soft_interrupt`) and the C library are not part of
the sources; each is modelled by a definition whose comment says so.  Every call that the
application makes into them is appended to `World.calls`, and every byte that reaches the
transmit holding register is appended to `World.thr`.
-/

namespace MMUART

/-- Calls from the application into the UART driver and the HAL, as they are logged. -/
inductive Call where
  | MSS_UART_fill_tx_fifo (tx_size : Nat)
  | MSS_UART_polled_tx (bytes : List Nat)
  | MSS_UART_irq_tx (bytes : List Nat)
  | MSS_UART_set_tx_handler
  | MSS_UART_get_rx (buff_size : Nat)
  | MSS_UART_disable_irq (irq_mask : Nat)
  | raise_soft_interrupt (hart : Nat)
  | clear_soft_interrupt
  deriving DecidableEq, Repr

/-- The transmit handler a UART instance holds: the driver's own one, or
`uart2_tx_handler` once `MSS_UART_set_tx_handler` has registered it. -/
inductive TxHandler where
  | default_tx_handler
  | uart2_tx_handler
  deriving DecidableEq, Repr

/-- The transmit side of `mss_uart_instance_t`, with the transmit-holding-register-empty
interrupt enable bit of the instance's hardware block. -/
structure mss_uart_instance_t where
  tx_buffer : Option (List Nat)
  tx_buff_size : Nat
  tx_idx : Nat
  tx_handler : TxHandler
  tbe_irq_enabled : Bool
  deriving DecidableEq, Repr

/-- The globals of `u54_2.c` and `u54_4.c`, the function-static latch of
`uart2_tx_handler`, the locals of `u54_2` that live across loop iterations, the
software-interrupt enable bit of hart 2 in `mie`, the software-interrupt pending bit
(MSIP) of each of the five harts, and the two logs. -/
structure World where
  g_mss_uart2_lo : mss_uart_instance_t
  g_rx_buff2 : List Nat
  g_rx_size2 : Nat
  irq_cnt : Nat
  info_string2 : List Nat
  count_sw_ints_h2 : Nat
  count_sw_ints_h1 : Nat
  hart3_soft_interrupt_occured : Nat
  mcycle_start : Nat
  mcycle_end : Nat
  delta_mcycle : Nat
  hartid : Nat
  mie_msip : Bool
  msip : List Bool
  thr : List Nat
  calls : List Call
  deriving DecidableEq, Repr

/-- `RX_BUFF_SIZE` of `u54_2.c`. -/
def RX_BUFF_SIZE : Nat := 16

/-- The state the C initialisers give: zeroed globals, the latch at 0, no transfer
registered, no software interrupt pending, empty logs. -/
def World.reset : World where
  g_mss_uart2_lo :=
    { tx_buffer := none, tx_buff_size := 0, tx_idx := 0,
      tx_handler := TxHandler.default_tx_handler, tbe_irq_enabled := false }
  g_rx_buff2 := List.replicate RX_BUFF_SIZE 0
  g_rx_size2 := 0
  irq_cnt := 0
  info_string2 := List.replicate 100 0
  count_sw_ints_h2 := 0
  count_sw_ints_h1 := 0
  hart3_soft_interrupt_occured := 0
  mcycle_start := 0
  mcycle_end := 0
  delta_mcycle := 0
  hartid := 2
  mie_msip := false
  msip := List.replicate 5 false
  thr := []
  calls := []

/-! ## The C library, the UART driver and the HAL -/

/-- The bytes of an ASCII text. -/
def bytes (s : String) : List Nat := s.toList.map Char.toNat

/-- A `const uint8_t []` initialised from a string literal: the text and its
terminating NUL, so that `sizeof` is the length of this list. -/
def c_array (s : String) : List Nat := bytes s ++ [0]

/-- `g_message5`: the menu. -/
def g_message5 : List Nat :=
  c_array ("This program is run from u54_2\r\n" ++ "        \r\n" ++
    "Type 0  Show hart 2 debug message\r\n" ++ "Type 1  Show this menu\r\n" ++
    "Type 2  Send message using polled method\r\n" ++
    "Type 3  Send message using interrupt method\r\n" ++
    "Type 4  Send message using user defined tx handler\r\n")

/-- `polled_message2`. -/
def polled_message2 : List Nat :=
  c_array "This message has been transmitted using polled method. \r\n"

/-- `intr_message2`. -/
def intr_message2 : List Nat :=
  c_array "This message has been transmitted using external interrupt method. \r\n"

/-- `intr_message3`. -/
def intr_message3 : List Nat :=
  c_array ("This message has been transmitted using external interrupt method, " ++
    "through the user defined tx handler.\r\n\r\nWatch UART3 to see hart3 " ++
    "out of WFI.\r\n")

/-- The character of one digit, lower case above 9 as `%x` prints it. -/
def digit_char (d : Nat) : Nat := if d < 10 then 48 + d else 87 + d

/-- The digits of `n` in `base`, most significant first, in front of `acc`; `fuel`
bounds the number of digits. -/
def digits_aux (base : Nat) : Nat → Nat → List Nat → List Nat
  | 0, _, acc => acc
  | fuel + 1, n, acc =>
    if n / base = 0 then digit_char (n % base) :: acc
    else digits_aux base fuel (n / base) (digit_char (n % base) :: acc)

/-- The conversion `%x` of an `unsigned int`. -/
def fmt_x (n : Nat) : List Nat := digits_aux 16 8 (n % 4294967296) []

/-- The conversion `%ld` of a 64-bit value read as a `long`. -/
def fmt_ld (n : Nat) : List Nat :=
  let v := n % 18446744073709551616
  if v < 9223372036854775808 then digits_aux 10 20 v []
  else 45 :: digits_aux 10 20 (18446744073709551616 - v) []

/-- The effect of `sprintf` on its destination: the formatted text and a NUL at the
start of the array, the rest of the array as it was. -/
def sprintf (dst : List Nat) (text : List Nat) : List Nat :=
  text ++ [0] ++ dst.drop (text.length + 1)

/-- `strlen`: the number of bytes before the first NUL. -/
def strlen (s : List Nat) : Nat := (s.takeWhile (fun b => b != 0)).length

/-- Modelled from the spec: `MSS_UART_polled_tx` of the UART driver is not in the
sources.  It writes the `tx_size` bytes at `pbuff` to the hardware in order and returns
once all of them are accepted. -/
def MSS_UART_polled_tx (pbuff : List Nat) (tx_size : Nat) (w : World) : World :=
  { w with thr := w.thr ++ pbuff.take tx_size,
           calls := w.calls ++ [Call.MSS_UART_polled_tx (pbuff.take tx_size)] }

/-- Modelled from the spec: `MSS_UART_irq_tx` of the UART driver is not in the sources.
It registers the bytes as the pending transmit payload, resets the transmit index to 0,
arms the transmit-holding-register-empty interrupt and returns. -/
def MSS_UART_irq_tx (pbuff : List Nat) (tx_size : Nat) (w : World) : World :=
  { w with g_mss_uart2_lo :=
             { w.g_mss_uart2_lo with tx_buffer := some pbuff, tx_buff_size := tx_size,
                                     tx_idx := 0, tbe_irq_enabled := true },
           calls := w.calls ++ [Call.MSS_UART_irq_tx (pbuff.take tx_size)] }

/-- Modelled from the spec: `MSS_UART_set_tx_handler` of the UART driver is not in the
sources.  It replaces the transmit handler of the instance. -/
def MSS_UART_set_tx_handler (handler : TxHandler) (w : World) : World :=
  { w with g_mss_uart2_lo := { w.g_mss_uart2_lo with tx_handler := handler },
           calls := w.calls ++ [Call.MSS_UART_set_tx_handler] }

/-- Modelled from the spec: `MSS_UART_get_rx` of the UART driver is not in the sources.
It drains up to `buff_size` bytes from the hardware receive FIFO (`rx_fifo`) into the
start of `rx_buff` and returns their count; the second component is the buffer
afterwards. -/
def MSS_UART_get_rx (rx_fifo : List Nat) (rx_buff : List Nat) (buff_size : Nat) :
    Nat × List Nat :=
  let n := min rx_fifo.length buff_size
  (n, rx_fifo.take n ++ rx_buff.drop n)

/-- Modelled from the spec: `clear_soft_interrupt` of the HAL is not in the sources.  It
clears the software-interrupt pending bit of the hart that calls it. -/
def clear_soft_interrupt (hart : Nat) (w : World) : World :=
  { w with msip := w.msip.set hart false,
           calls := w.calls ++ [Call.clear_soft_interrupt] }

/-- The three `ASSERT` checks of `uart2_tx_handler`, in source order. -/
inductive AssertFailure where
  | tx_buffer_is_null
  | tx_buff_size_is_zero
  | sub_buffer_size_is_zero
  deriving DecidableEq, Repr

/-- Modelled from the spec: the `ASSERT` macro of the HAL is not in the sources, and how
it is built is the parameter `ndebug`.  With `ndebug` the macro expands to nothing and the
check is skipped; without it a failed check stops the hart, which is the error result. -/
def ASSERT (ndebug : Bool) (check : Bool) (e : AssertFailure) : Except AssertFailure Unit :=
  if ndebug || check then Except.ok () else Except.error e

/-- Modelled from the spec: `raise_soft_interrupt` of the HAL is not in the sources.  It
raises the software interrupt line of the addressed hart: the hart's MSIP bit is set. -/
def raise_soft_interrupt (hart : Nat) (w : World) : World :=
  { w with msip := w.msip.set hart true,
           calls := w.calls ++ [Call.raise_soft_interrupt hart] }

/-- Modelled from the spec: `MSS_UART_fill_tx_fifo` of the UART driver is not in the
sources.  Of the `tx_size` bytes offered at `tx_buffer` the hardware FIFO takes as many as
it accepts at this call (`accept`, any number; never more than offered): these bytes, the
first ones offered, are written to the transmit holding register in order, and their count
is returned. -/
def MSS_UART_fill_tx_fifo (accept : Nat) (tx_buffer : List Nat) (tx_size : Nat)
    (w : World) : Nat × World :=
  let size_sent := min accept tx_size
  (size_sent,
   { w with thr := w.thr ++ tx_buffer.take size_sent,
            calls := w.calls ++ [Call.MSS_UART_fill_tx_fifo tx_size] })

/-! ## `u54_2.c` and the handler of `u54_4.c` -/

/-- The body of `uart2_tx_handler` after its three checks: fill the FIFO from the unsent
sub-range, advance `tx_idx` (a `uint32_t`), and raise the software interrupt of hart 3
when the latch is clear and the index has reached the size. -/
def uart2_tx_handler_body (accept : Nat) (w : World) : World :=
  let this_uart := w.g_mss_uart2_lo
  let sub_buffer := (this_uart.tx_buffer.getD []).drop this_uart.tx_idx
  let sub_buffer_size := (this_uart.tx_buff_size + 4294967296 - this_uart.tx_idx) % 4294967296
  let r := MSS_UART_fill_tx_fifo accept sub_buffer sub_buffer_size w
  let size_sent := r.1
  let w1 := r.2
  let w2 := { w1 with g_mss_uart2_lo :=
                { w1.g_mss_uart2_lo with tx_idx := (this_uart.tx_idx + size_sent) % 4294967296 } }
  if w2.hart3_soft_interrupt_occured = 0 ∧
      w2.g_mss_uart2_lo.tx_idx = w2.g_mss_uart2_lo.tx_buff_size then
    { raise_soft_interrupt 3 w2 with hart3_soft_interrupt_occured := 1 }
  else
    w2

/-- `uart2_tx_handler` of `u54_2.c`, for one transmit-holding-register-empty interrupt.
`accept` is the number of bytes the hardware FIFO has room for at this interrupt. -/
def uart2_tx_handler (ndebug : Bool) (accept : Nat) (w : World) : Except AssertFailure World :=
  let this_uart := w.g_mss_uart2_lo
  let sub_buffer_size := (this_uart.tx_buff_size + 4294967296 - this_uart.tx_idx) % 4294967296
  match ASSERT ndebug this_uart.tx_buffer.isSome AssertFailure.tx_buffer_is_null with
  | Except.error e => Except.error e
  | Except.ok _ =>
    match ASSERT ndebug (decide (0 < this_uart.tx_buff_size))
        AssertFailure.tx_buff_size_is_zero with
    | Except.error e => Except.error e
    | Except.ok _ =>
      match ASSERT ndebug (decide (0 < sub_buffer_size))
          AssertFailure.sub_buffer_size_is_zero with
      | Except.error e => Except.error e
      | Except.ok _ => Except.ok (uart2_tx_handler_body accept w)

/-- `uart2_rx_handler` of `u54_2.c`, for one receive interrupt; `rx_fifo` is what the
hardware receive FIFO holds at the interrupt.  The local `info_string2[50]` receives
the formatted count and is sent by the polled method. -/
def uart2_rx_handler (rx_fifo : List Nat) (w : World) : World :=
  let irq_cnt := (w.irq_cnt + 1) % 4294967296
  let info_string2 :=
    sprintf (List.replicate 50 0)
      (bytes "UART2 Interrupt count = 0x" ++ fmt_x irq_cnt ++ bytes " \r\n\r\n")
  let r := MSS_UART_get_rx rx_fifo w.g_rx_buff2 RX_BUFF_SIZE
  let w1 := { w with irq_cnt := irq_cnt, g_rx_buff2 := r.2, g_rx_size2 := r.1 % 256,
                     calls := w.calls ++ [Call.MSS_UART_get_rx RX_BUFF_SIZE] }
  MSS_UART_polled_tx info_string2 (strlen info_string2) w1

/-- `Software_h2_IRQHandler` of `u54_2.c`: it reads `mhartid` into a local and
increments `count_sw_ints_h2`, a `uint32_t`. -/
def Software_h2_IRQHandler (w : World) : World :=
  { w with count_sw_ints_h2 := (w.count_sw_ints_h2 + 1) % 4294967296 }

/-- `Software_h1_IRQHandler` of `u54_4.c`: it increments `count_sw_ints_h1`, a
`uint32_t`. -/
def Software_h1_IRQHandler (w : World) : World :=
  { w with count_sw_ints_h1 := (w.count_sw_ints_h1 + 1) % 4294967296 }

/-- One pass through the body of the `while (1u)` loop of `u54_2`; `mcycle` is what
`readmcycle()` returns if the pass reads it. -/
def u54_2_loop_iteration (mcycle : Nat) (w : World) : World :=
  if 0 < w.g_rx_size2 then
    let w1 :=
      match w.g_rx_buff2.getD 0 0 with
      | 48 =>
        let mcycle_end := mcycle % 18446744073709551616
        let delta_mcycle :=
          (mcycle_end + 18446744073709551616 - w.mcycle_start) % 18446744073709551616
        let info_string2 :=
          sprintf w.info_string2
            (bytes "hart " ++ fmt_ld w.hartid ++ bytes ", " ++ fmt_ld delta_mcycle ++
              bytes " delta_mcycle \r\n")
        MSS_UART_polled_tx info_string2 (strlen info_string2)
          { w with mcycle_end := mcycle_end, delta_mcycle := delta_mcycle,
                   info_string2 := info_string2 }
      | 49 => MSS_UART_irq_tx g_message5 g_message5.length w
      | 50 => MSS_UART_polled_tx polled_message2 polled_message2.length w
      | 51 => MSS_UART_irq_tx intr_message2 intr_message2.length w
      | 52 =>
        MSS_UART_irq_tx intr_message3 intr_message3.length
          (MSS_UART_set_tx_handler TxHandler.uart2_tx_handler w)
      | _ => MSS_UART_polled_tx w.g_rx_buff2 w.g_rx_size2 w
    { w1 with g_rx_size2 := 0 }
  else
    w

/-- What happens to hart 2 while it is in the boot barrier: another hart raises the
software interrupt of hart 2, or the `wfi` instruction returns. -/
inductive HartEvent where
  | signal
  | wake
  deriving DecidableEq, Repr

/-- The `do { wfi } while (0 == (read_csr(mip) & MIP_MSIP))` loop of `u54_2`, over the
events that reach the hart.  At each return of `wfi` the loop reads the pending bit of
hart 2 and leaves when it is set; the result is the state and the events left over, and
`none` when the events end with the hart still waiting. -/
def u54_2_wfi_loop : List HartEvent → World → Option (World × List HartEvent)
  | [], _ => none
  | HartEvent.signal :: evs, w => u54_2_wfi_loop evs { w with msip := w.msip.set 2 true }
  | HartEvent.wake :: evs, w =>
    if w.msip.getD 2 false = false then u54_2_wfi_loop evs w else some (w, evs)

/-- The boot barrier of `u54_2` (built with `IMAGE_LOADED_BY_BOOTLOADER == 0`):
`clear_soft_interrupt()`, `set_csr(mie, MIP_MSIP)`, the `wfi` loop, and
`clear_soft_interrupt()` once the loop is left. -/
def u54_2_boot_barrier (evs : List HartEvent) (w : World) : Option (World × List HartEvent) :=
  let w1 := clear_soft_interrupt 2 w
  let w2 := { w1 with mie_msip := true }
  match u54_2_wfi_loop evs w2 with
  | none => none
  | some (w3, rest) => some (clear_soft_interrupt 2 w3, rest)

/-! ## The interrupt source, as the environment of the handlers -/

/-- One invocation of `uart2_tx_handler` per element of `accepts`, whatever the state of
the transfer. -/
def fire (ndebug : Bool) : List Nat → World → Except AssertFailure World
  | [], w => Except.ok w
  | k :: ks, w =>
    match uart2_tx_handler ndebug k w with
    | Except.error e => Except.error e
    | Except.ok w1 => fire ndebug ks w1

/-- Invocations of `uart2_tx_handler`, one per element of `accepts`, repeated until
`tx_idx == tx_buff_size`; what is left of `accepts` at that point is not used. -/
def drive (ndebug : Bool) : List Nat → World → Except AssertFailure World
  | [], w => Except.ok w
  | k :: ks, w =>
    if w.g_mss_uart2_lo.tx_idx = w.g_mss_uart2_lo.tx_buff_size then Except.ok w
    else
      match uart2_tx_handler ndebug k w with
      | Except.error e => Except.error e
      | Except.ok w1 => drive ndebug ks w1

/-- The number of `raise_soft_interrupt(3U)` calls logged so far. -/
def raises (w : World) : Nat := w.calls.count (Call.raise_soft_interrupt 3)

/-- The number of `uart2_tx_handler` invocations logged so far: each invocation that
passes its checks calls `MSS_UART_fill_tx_fifo` once. -/
def invocations (w : World) : Nat :=
  w.calls.countP fun c => match c with
    | Call.MSS_UART_fill_tx_fifo _ => true
    | _ => false

/-- Whether a logged call transmits: the polled and the interrupt-driven write. -/
def Call.is_transmit : Call → Bool
  | Call.MSS_UART_polled_tx _ => true
  | Call.MSS_UART_irq_tx _ => true
  | _ => false

/-- One transfer through command `'4'`: the receive interrupt delivers the byte `'4'`,
the main loop dispatches on it, the transmit interrupt invokes `uart2_tx_handler` until
the transfer is complete, and `spurious` further invocations follow. -/
def transfer_4 (ndebug : Bool) (mcycle : Nat) (accepts spurious : List Nat) (w : World) :
    Except AssertFailure World :=
  match drive ndebug accepts (u54_2_loop_iteration mcycle (uart2_rx_handler [52] w)) with
  | Except.error e => Except.error e
  | Except.ok w1 => fire ndebug spurious w1

/-- A state with the transfer of `S` armed: `tx_buffer = S`, `tx_buff_size = |S|`,
`tx_idx = 0`, nothing written yet. -/
def armed (S : List Nat) : World :=
  { World.reset with
    g_mss_uart2_lo :=
      { tx_buffer := some S, tx_buff_size := S.length, tx_idx := 0,
        tx_handler := TxHandler.uart2_tx_handler, tbe_irq_enabled := true } }

/-- A transfer of `S` is registered: `tx_buffer = S`, `tx_buff_size = |S|`, both fit a
`uint32_t`, and the transmit index is within the buffer. -/
def InFlight (S : List Nat) (w : World) : Prop :=
  w.g_mss_uart2_lo.tx_buffer = some S ∧ w.g_mss_uart2_lo.tx_buff_size = S.length ∧
  w.g_mss_uart2_lo.tx_idx ≤ S.length ∧ S.length < 4294967296

/-- A transfer through command `'4'` as the environment shapes it: the cycle count at
the loop pass, the FIFO room at the interrupts that drive the transfer, and the FIFO room
at the interrupts that fire after it is complete. -/
structure Transfer4 where
  mcycle : Nat
  accepts : List Nat
  spurious : List Nat
  deriving DecidableEq, Repr

/-- A sequence of transfers through command `'4'`, one after the other. -/
def transfers_4 (ndebug : Bool) : List Transfer4 → World → Except AssertFailure World
  | [], w => Except.ok w
  | t :: ts, w =>
    match transfer_4 ndebug t.mcycle t.accepts t.spurious w with
    | Except.error e => Except.error e
    | Except.ok w1 => transfers_4 ndebug ts w1

/-- The transfer of `"A"` complete (`tx_idx == tx_buff_size == 1`) with the latch still
clear. -/
def complete_latch_clear : World :=
  { armed [65] with
    g_mss_uart2_lo := { (armed [65]).g_mss_uart2_lo with tx_idx := 1 },
    thr := [65] }

/-- The transfer of `"A"` complete with the latch set, as `uart2_tx_handler` leaves it. -/
def complete_latch_set : World :=
  { complete_latch_clear with
    hart3_soft_interrupt_occured := 1,
    msip := [false, false, false, true, false],
    calls := [Call.MSS_UART_fill_tx_fifo 1, Call.raise_soft_interrupt 3] }

/-- The state at reset with the software interrupt of hart 2 already raised, as it is
when another hart has signalled hart 2 before `u54_2` is entered. -/
def signalled_before_entry : World :=
  { World.reset with msip := [false, false, true, false, false] }

/-- The state at reset with the unread payload `"9"` in the receive buffer. -/
def unread_9 : World :=
  { World.reset with g_rx_buff2 := 57 :: List.replicate 15 0, g_rx_size2 := 1 }

/-! ## The checks of `uart2_tx_handler` -/

theorem ASSERT_ndebug (check : Bool) (e : AssertFailure) : ASSERT true check e = Except.ok () := by
  simp [ASSERT]

theorem ASSERT_pass (ndebug : Bool) (e : AssertFailure) : ASSERT ndebug true e = Except.ok () := by
  simp [ASSERT]

theorem ASSERT_fail (e : AssertFailure) : ASSERT false false e = Except.error e := by
  simp [ASSERT]

theorem handler_ndebug (accept : Nat) (w : World) :
    uart2_tx_handler true accept w = Except.ok (uart2_tx_handler_body accept w) := by
  simp [uart2_tx_handler, ASSERT_ndebug]

theorem handler_in_flight (ndebug : Bool) (accept : Nat) (w : World) (S : List Nat)
    (h : InFlight S w) (hlt : w.g_mss_uart2_lo.tx_idx < S.length) :
    uart2_tx_handler ndebug accept w = Except.ok (uart2_tx_handler_body accept w) := by
  obtain ⟨hb, hs, _, hm⟩ := h
  have h2 : decide (0 < S.length) = true := by simp; omega
  have h3 : decide (0 < (S.length + 4294967296 - w.g_mss_uart2_lo.tx_idx) % 4294967296) = true := by
    simp; omega
  simp [uart2_tx_handler, hb, hs, h2, h3, ASSERT_pass]

theorem handler_complete_halts (accept : Nat) (w : World) (S : List Nat)
    (hb : w.g_mss_uart2_lo.tx_buffer = some S) (hs : 0 < w.g_mss_uart2_lo.tx_buff_size)
    (hm : w.g_mss_uart2_lo.tx_buff_size < 4294967296)
    (he : w.g_mss_uart2_lo.tx_idx = w.g_mss_uart2_lo.tx_buff_size) :
    uart2_tx_handler false accept w = Except.error AssertFailure.sub_buffer_size_is_zero := by
  have h2 : decide (0 < w.g_mss_uart2_lo.tx_buff_size) = true := by simp; omega
  have h3 : decide (0 < (w.g_mss_uart2_lo.tx_buff_size + 4294967296 -
      w.g_mss_uart2_lo.tx_buff_size) % 4294967296) = false := by
    simp
  simp [uart2_tx_handler, hb, he, h2, h3, ASSERT_pass, ASSERT_fail]

/-! ## The body of `uart2_tx_handler`, field by field -/

theorem body_tx_buffer (k : Nat) (w : World) :
    (uart2_tx_handler_body k w).g_mss_uart2_lo.tx_buffer = w.g_mss_uart2_lo.tx_buffer := by
  simp only [uart2_tx_handler_body, MSS_UART_fill_tx_fifo, raise_soft_interrupt]
  split <;> rfl

theorem body_tx_buff_size (k : Nat) (w : World) :
    (uart2_tx_handler_body k w).g_mss_uart2_lo.tx_buff_size = w.g_mss_uart2_lo.tx_buff_size := by
  simp only [uart2_tx_handler_body, MSS_UART_fill_tx_fifo, raise_soft_interrupt]
  split <;> rfl

theorem body_tbe_irq_enabled (k : Nat) (w : World) :
    (uart2_tx_handler_body k w).g_mss_uart2_lo.tbe_irq_enabled =
      w.g_mss_uart2_lo.tbe_irq_enabled := by
  simp only [uart2_tx_handler_body, MSS_UART_fill_tx_fifo, raise_soft_interrupt]
  split <;> rfl

theorem body_tx_idx (k : Nat) (w : World) :
    (uart2_tx_handler_body k w).g_mss_uart2_lo.tx_idx =
      (w.g_mss_uart2_lo.tx_idx +
        min k ((w.g_mss_uart2_lo.tx_buff_size + 4294967296 - w.g_mss_uart2_lo.tx_idx) %
          4294967296)) % 4294967296 := by
  simp only [uart2_tx_handler_body, MSS_UART_fill_tx_fifo, raise_soft_interrupt]
  split <;> rfl

theorem body_thr (k : Nat) (w : World) :
    (uart2_tx_handler_body k w).thr =
      w.thr ++ (((w.g_mss_uart2_lo.tx_buffer.getD []).drop w.g_mss_uart2_lo.tx_idx).take
        (min k ((w.g_mss_uart2_lo.tx_buff_size + 4294967296 - w.g_mss_uart2_lo.tx_idx) %
          4294967296))) := by
  simp only [uart2_tx_handler_body, MSS_UART_fill_tx_fifo, raise_soft_interrupt]
  split <;> rfl

theorem body_latch (k : Nat) (w : World) :
    (uart2_tx_handler_body k w).hart3_soft_interrupt_occured =
      if w.hart3_soft_interrupt_occured = 0 ∧
          (uart2_tx_handler_body k w).g_mss_uart2_lo.tx_idx = w.g_mss_uart2_lo.tx_buff_size
      then 1 else w.hart3_soft_interrupt_occured := by
  rw [body_tx_idx]
  simp only [uart2_tx_handler_body, MSS_UART_fill_tx_fifo, raise_soft_interrupt]
  split <;> rfl

theorem body_calls (k : Nat) (w : World) :
    (uart2_tx_handler_body k w).calls =
      w.calls ++
        Call.MSS_UART_fill_tx_fifo
          ((w.g_mss_uart2_lo.tx_buff_size + 4294967296 - w.g_mss_uart2_lo.tx_idx) %
            4294967296) ::
        (if w.hart3_soft_interrupt_occured = 0 ∧
            (uart2_tx_handler_body k w).g_mss_uart2_lo.tx_idx = w.g_mss_uart2_lo.tx_buff_size
         then [Call.raise_soft_interrupt 3] else []) := by
  rw [body_tx_idx]
  simp only [uart2_tx_handler_body, MSS_UART_fill_tx_fifo, raise_soft_interrupt]
  split <;> simp

theorem body_raises (k : Nat) (w : World) :
    raises (uart2_tx_handler_body k w) =
      raises w +
        (if w.hart3_soft_interrupt_occured = 0 ∧
            (uart2_tx_handler_body k w).g_mss_uart2_lo.tx_idx = w.g_mss_uart2_lo.tx_buff_size
         then 1 else 0) := by
  unfold raises
  rw [body_calls]
  split <;> simp [List.count_cons]

/-! ## One invocation while a transfer is registered -/

theorem sub_buffer_size_in_flight (S : List Nat) (w : World) (h : InFlight S w) :
    (w.g_mss_uart2_lo.tx_buff_size + 4294967296 - w.g_mss_uart2_lo.tx_idx) % 4294967296 =
      S.length - w.g_mss_uart2_lo.tx_idx := by
  obtain ⟨_, hs, hi, hm⟩ := h
  omega

theorem body_tx_idx_in_flight (k : Nat) (S : List Nat) (w : World) (h : InFlight S w) :
    (uart2_tx_handler_body k w).g_mss_uart2_lo.tx_idx =
      min (w.g_mss_uart2_lo.tx_idx + k) S.length := by
  rw [body_tx_idx, sub_buffer_size_in_flight S w h]
  obtain ⟨_, hs, hi, hm⟩ := h
  omega

theorem body_in_flight (k : Nat) (S : List Nat) (w : World) (h : InFlight S w) :
    InFlight S (uart2_tx_handler_body k w) := by
  refine ⟨?_, ?_, ?_, h.2.2.2⟩
  · rw [body_tx_buffer]; exact h.1
  · rw [body_tx_buff_size]; exact h.2.1
  · rw [body_tx_idx_in_flight k S w h]; omega

theorem body_thr_in_flight (k : Nat) (S T : List Nat) (w : World) (h : InFlight S w)
    (ht : w.thr = T ++ S.take w.g_mss_uart2_lo.tx_idx) :
    (uart2_tx_handler_body k w).thr =
      T ++ S.take (uart2_tx_handler_body k w).g_mss_uart2_lo.tx_idx := by
  rw [body_thr, body_tx_idx_in_flight k S w h, sub_buffer_size_in_flight S w h, ht, h.1]
  obtain ⟨_, hs, hi, hm⟩ := h
  have e : min (w.g_mss_uart2_lo.tx_idx + k) S.length =
      w.g_mss_uart2_lo.tx_idx + min k (S.length - w.g_mss_uart2_lo.tx_idx) := by omega
  rw [e, List.take_add]
  simp [List.append_assoc]

/-! ## Invocations until the transfer is complete -/

theorem drive_in_flight (ndebug : Bool) (S T : List Nat) :
    ∀ (ks : List Nat) (w : World), InFlight S w →
      w.thr = T ++ S.take w.g_mss_uart2_lo.tx_idx →
      ∃ w1, drive ndebug ks w = Except.ok w1 ∧ InFlight S w1 ∧
        w1.thr = T ++ S.take w1.g_mss_uart2_lo.tx_idx ∧
        w1.g_mss_uart2_lo.tx_idx = min (w.g_mss_uart2_lo.tx_idx + ks.sum) S.length ∧
        w1.hart3_soft_interrupt_occured =
          (if w.hart3_soft_interrupt_occured = 0 ∧ w.g_mss_uart2_lo.tx_idx < S.length ∧
              w1.g_mss_uart2_lo.tx_idx = S.length
           then 1 else w.hart3_soft_interrupt_occured) ∧
        raises w1 =
          raises w +
            (if w.hart3_soft_interrupt_occured = 0 ∧ w.g_mss_uart2_lo.tx_idx < S.length ∧
                w1.g_mss_uart2_lo.tx_idx = S.length
             then 1 else 0) := by
  intro ks
  induction ks with
  | nil =>
    intro w h ht
    refine ⟨w, rfl, h, ht, ?_, ?_, ?_⟩
    · have := h.2.2.1
      simp; omega
    · split
      · omega
      · rfl
    · split
      · omega
      · rfl
  | cons k ks ih =>
    intro w h ht
    by_cases hc : w.g_mss_uart2_lo.tx_idx = w.g_mss_uart2_lo.tx_buff_size
    · have hs := h.2.1
      refine ⟨w, by simp [drive, hc], h, ht, ?_, ?_, ?_⟩
      · simp; omega
      · split
        · omega
        · rfl
      · split
        · omega
        · rfl
    · have hs := h.2.1
      have hi := h.2.2.1
      have hlt : w.g_mss_uart2_lo.tx_idx < S.length := by omega
      have hb := body_in_flight k S w h
      have hidx := body_tx_idx_in_flight k S w h
      obtain ⟨w1, hd, hf, hthr, hidx1, hl1, hr1⟩ :=
        ih (uart2_tx_handler_body k w) hb (body_thr_in_flight k S T w h ht)
      refine ⟨w1, ?_, hf, hthr, ?_, ?_, ?_⟩
      · simp [drive, hc, handler_in_flight ndebug k w S h hlt, hd]
      · rw [hidx1, hidx]; simp; omega
      · rw [hl1, body_latch, hs, hidx]
        have h1 := hf.2.2.1
        split_ifs <;> omega
      · rw [hr1, body_raises, body_latch, hs, hidx]
        have h1 := hf.2.2.1
        split_ifs <;> omega

/-! ## Invocations in any state -/

theorem handler_eq_body (ndebug : Bool) (k : Nat) (w w1 : World)
    (h : uart2_tx_handler ndebug k w = Except.ok w1) : w1 = uart2_tx_handler_body k w := by
  unfold uart2_tx_handler at h
  simp only at h
  split at h
  · exact Except.noConfusion h
  · split at h
    · exact Except.noConfusion h
    · split at h
      · exact Except.noConfusion h
      · exact (Except.ok.inj h).symm

theorem body_uart (k : Nat) (w : World) :
    (uart2_tx_handler_body k w).g_mss_uart2_lo =
      { w.g_mss_uart2_lo with
        tx_idx := (w.g_mss_uart2_lo.tx_idx +
          min k ((w.g_mss_uart2_lo.tx_buff_size + 4294967296 - w.g_mss_uart2_lo.tx_idx) %
            4294967296)) % 4294967296 } := by
  simp only [uart2_tx_handler_body, MSS_UART_fill_tx_fifo, raise_soft_interrupt]
  split <;> rfl

theorem body_tx_idx_le (k : Nat) (w : World)
    (hi : w.g_mss_uart2_lo.tx_idx ≤ w.g_mss_uart2_lo.tx_buff_size)
    (hm : w.g_mss_uart2_lo.tx_buff_size < 4294967296) :
    (uart2_tx_handler_body k w).g_mss_uart2_lo.tx_idx =
      min (w.g_mss_uart2_lo.tx_idx + k) w.g_mss_uart2_lo.tx_buff_size := by
  rw [body_tx_idx]
  omega

theorem body_disable_irq (k m : Nat) (w : World)
    (h : Call.MSS_UART_disable_irq m ∈ (uart2_tx_handler_body k w).calls) :
    Call.MSS_UART_disable_irq m ∈ w.calls := by
  rw [body_calls] at h
  split at h <;> simpa using h

theorem fire_ndebug_ok : ∀ (ks : List Nat) (w : World), ∃ w1, fire true ks w = Except.ok w1 := by
  intro ks
  induction ks with
  | nil => intro w; exact ⟨w, rfl⟩
  | cons k ks ih =>
    intro w
    obtain ⟨w1, h1⟩ := ih (uart2_tx_handler_body k w)
    exact ⟨w1, by simp [fire, handler_ndebug, h1]⟩

theorem fire_step (ndebug : Bool) (k : Nat) (ks : List Nat) (w w1 : World)
    (h : fire ndebug (k :: ks) w = Except.ok w1) :
    fire ndebug ks (uart2_tx_handler_body k w) = Except.ok w1 := by
  simp only [fire] at h
  split at h
  · exact Except.noConfusion h
  · rename_i w2 h2
    rw [← handler_eq_body ndebug k w w2 h2]
    exact h

theorem fire_tx_idx_le (ndebug : Bool) :
    ∀ (ks : List Nat) (w w1 : World),
      w.g_mss_uart2_lo.tx_idx ≤ w.g_mss_uart2_lo.tx_buff_size →
      w.g_mss_uart2_lo.tx_buff_size < 4294967296 →
      fire ndebug ks w = Except.ok w1 →
      w1.g_mss_uart2_lo.tx_buff_size = w.g_mss_uart2_lo.tx_buff_size ∧
        w1.g_mss_uart2_lo.tx_idx ≤ w1.g_mss_uart2_lo.tx_buff_size := by
  intro ks
  induction ks with
  | nil =>
    intro w w1 hi _ h
    have e : w = w1 := Except.ok.inj h
    subst e
    exact ⟨rfl, hi⟩
  | cons k ks ih =>
    intro w w1 hi hm h
    have hs := body_tx_buff_size k w
    have hx := body_tx_idx_le k w hi hm
    obtain ⟨h1, h2⟩ := ih (uart2_tx_handler_body k w) w1 (by rw [hx, hs]; omega) (by rw [hs]; exact hm)
      (fire_step ndebug k ks w w1 h)
    exact ⟨by rw [h1, hs], h2⟩

/-- Firings after completion with the latch set and the checks compiled out: nothing of
the transfer, of the trace or of the latch changes, and no software interrupt is raised. -/
theorem fire_complete_latched :
    ∀ (ks : List Nat) (w : World),
      w.g_mss_uart2_lo.tx_idx = w.g_mss_uart2_lo.tx_buff_size →
      w.g_mss_uart2_lo.tx_idx < 4294967296 →
      w.hart3_soft_interrupt_occured ≠ 0 →
      ∃ w1, fire true ks w = Except.ok w1 ∧ w1.g_mss_uart2_lo = w.g_mss_uart2_lo ∧
        w1.thr = w.thr ∧ w1.hart3_soft_interrupt_occured = w.hart3_soft_interrupt_occured ∧
        raises w1 = raises w := by
  intro ks
  induction ks with
  | nil => intro w _ _ _; exact ⟨w, rfl, rfl, rfl, rfl, rfl⟩
  | cons k ks ih =>
    intro w he hm hl
    have hu : (uart2_tx_handler_body k w).g_mss_uart2_lo = w.g_mss_uart2_lo := by
      rw [body_uart, he]
      have e : (w.g_mss_uart2_lo.tx_buff_size + min k ((w.g_mss_uart2_lo.tx_buff_size +
          4294967296 - w.g_mss_uart2_lo.tx_buff_size) % 4294967296)) % 4294967296 =
          w.g_mss_uart2_lo.tx_idx := by omega
      rw [e]
    have ht : (uart2_tx_handler_body k w).thr = w.thr := by
      rw [body_thr, he]
      have e : min k ((w.g_mss_uart2_lo.tx_buff_size + 4294967296 -
          w.g_mss_uart2_lo.tx_buff_size) % 4294967296) = 0 := by omega
      rw [e]; simp
    have hl1 : (uart2_tx_handler_body k w).hart3_soft_interrupt_occured =
        w.hart3_soft_interrupt_occured := by
      rw [body_latch]; simp [hl]
    have hr : raises (uart2_tx_handler_body k w) = raises w := by
      rw [body_raises]; simp [hl]
    obtain ⟨w1, hf, h1, h2, h3, h4⟩ := ih (uart2_tx_handler_body k w)
      (by rw [hu]; exact he) (by rw [hu]; exact hm) (by rw [hl1]; exact hl)
    exact ⟨w1, by simp [fire, handler_ndebug, hf], by rw [h1, hu], by rw [h2, ht],
      by rw [h3, hl1], by rw [h4, hr]⟩

/-! ## C1: the bytes written do not depend on how the FIFO accepts them -/

/-- C1. Chunking-invariance of `uart2_tx_handler`.  For every transmit buffer `S` registered
with `tx_buffer = S`, `tx_buff_size = |S|`, `tx_idx = 0`, and every list `accepts` of the
numbers of bytes the FIFO has room for at the successive interrupts, invoking the handler
until `tx_idx == tx_buff_size` passes every check, ends with exactly the first `tx_idx`
bytes of `S` written to the hardware in order, and, as soon as the schedule accepts `|S|`
bytes in all, ends with `tx_idx == tx_buff_size` and the trace equal to `S`.  It holds with
the checks compiled in or out, and the empty buffer is the trivial case. -/
theorem uart2_tx_chunking_invariance (ndebug : Bool) (S accepts : List Nat) (w : World)
    (hlen : S.length < 4294967296)
    (hb : w.g_mss_uart2_lo.tx_buffer = some S)
    (hsz : w.g_mss_uart2_lo.tx_buff_size = S.length)
    (hi : w.g_mss_uart2_lo.tx_idx = 0) :
    ∃ w1, drive ndebug accepts w = Except.ok w1 ∧
      w1.g_mss_uart2_lo.tx_buff_size = S.length ∧
      w1.g_mss_uart2_lo.tx_idx = min accepts.sum S.length ∧
      w1.thr = w.thr ++ S.take w1.g_mss_uart2_lo.tx_idx ∧
      (w1.g_mss_uart2_lo.tx_idx = w1.g_mss_uart2_lo.tx_buff_size → w1.thr = w.thr ++ S) ∧
      (S.length ≤ accepts.sum →
        w1.g_mss_uart2_lo.tx_idx = w1.g_mss_uart2_lo.tx_buff_size ∧ w1.thr = w.thr ++ S) := by
  have hf : InFlight S w := ⟨hb, hsz, by omega, hlen⟩
  obtain ⟨w1, hd, hf1, hthr, hidx, _, _⟩ :=
    drive_in_flight ndebug S w.thr accepts w hf (by simp [hi])
  have hfull : w1.g_mss_uart2_lo.tx_idx = w1.g_mss_uart2_lo.tx_buff_size →
      w1.thr = w.thr ++ S := by
    intro he
    rw [hthr, he, hf1.2.1, List.take_length]
  refine ⟨w1, hd, hf1.2.1, ?_, hthr, hfull, ?_⟩
  · rw [hidx, hi]; simp
  · intro hsum
    have he : w1.g_mss_uart2_lo.tx_idx = w1.g_mss_uart2_lo.tx_buff_size := by
      rw [hidx, hi, hf1.2.1]; simp; omega
    exact ⟨he, hfull he⟩

/-- C1, the scenario of the specification: the buffer `"AB"` with one byte accepted per
interrupt.  The run takes two invocations, ends with `tx_idx = 2`, and the trace is
`['A', 'B']`; with both bytes accepted at once it takes one invocation and the trace is
the same. -/
theorem uart2_tx_chunking_invariance_witness :
    (Option.map (fun w1 => (invocations w1, w1.g_mss_uart2_lo.tx_idx, w1.thr))
        (drive false [1, 1] (armed [65, 66])).toOption = some (2, 2, [65, 66])) ∧
    (Option.map (fun w1 => (invocations w1, w1.g_mss_uart2_lo.tx_idx, w1.thr))
        (drive false [16] (armed [65, 66])).toOption = some (1, 2, [65, 66])) ∧
    ∃ w1, drive false [1, 1] (armed [65, 66]) = Except.ok w1 ∧
      w1.g_mss_uart2_lo.tx_buff_size = [65, 66].length ∧
      w1.g_mss_uart2_lo.tx_idx = min [1, 1].sum [65, 66].length ∧
      w1.thr = (armed [65, 66]).thr ++ [65, 66].take w1.g_mss_uart2_lo.tx_idx ∧
      (w1.g_mss_uart2_lo.tx_idx = w1.g_mss_uart2_lo.tx_buff_size →
        w1.thr = (armed [65, 66]).thr ++ [65, 66]) ∧
      ([65, 66].length ≤ [1, 1].sum →
        w1.g_mss_uart2_lo.tx_idx = w1.g_mss_uart2_lo.tx_buff_size ∧
          w1.thr = (armed [65, 66]).thr ++ [65, 66]) :=
  ⟨by decide, by decide,
   uart2_tx_chunking_invariance false [65, 66] [1, 1] (armed [65, 66]) (by decide) rfl rfl rfl⟩

/-! ## C2: the software interrupt of hart 3 and the latch -/

theorem intr_message3_length : intr_message3.length = 146 := by rfl

/-- Command `'4'`: after the receive interrupt has delivered `'4'` and the main loop has
dispatched on it, the transfer of `intr_message3` is registered at index 0; the latch and
the number of raised software interrupts are as before. -/
theorem command_4_arms (mcycle : Nat) (w : World) :
    InFlight intr_message3 (u54_2_loop_iteration mcycle (uart2_rx_handler [52] w)) ∧
    (u54_2_loop_iteration mcycle (uart2_rx_handler [52] w)).g_mss_uart2_lo.tx_idx = 0 ∧
    (u54_2_loop_iteration mcycle (uart2_rx_handler [52] w)).hart3_soft_interrupt_occured =
      w.hart3_soft_interrupt_occured ∧
    raises (u54_2_loop_iteration mcycle (uart2_rx_handler [52] w)) = raises w := by
  have hl := intr_message3_length
  simp [u54_2_loop_iteration, uart2_rx_handler, MSS_UART_get_rx, MSS_UART_polled_tx,
    MSS_UART_irq_tx, MSS_UART_set_tx_handler, RX_BUFF_SIZE, InFlight, raises, hl,
    List.count_cons]

/-- One transfer through command `'4'`, driven to completion, with any firings after
completion when the checks are compiled out: the software interrupt of hart 3 is raised
once if the latch was clear, and not at all if it was set; the latch is set afterwards. -/
theorem transfer_4_raises (ndebug : Bool) (mcycle : Nat) (accepts spurious : List Nat)
    (w : World) (hacc : intr_message3.length ≤ accepts.sum)
    (hsp : ndebug = true ∨ spurious = []) :
    ∃ w1, transfer_4 ndebug mcycle accepts spurious w = Except.ok w1 ∧
      w1.g_mss_uart2_lo.tx_idx = w1.g_mss_uart2_lo.tx_buff_size ∧
      w1.hart3_soft_interrupt_occured =
        (if w.hart3_soft_interrupt_occured = 0 then 1 else w.hart3_soft_interrupt_occured) ∧
      raises w1 = raises w + (if w.hart3_soft_interrupt_occured = 0 then 1 else 0) := by
  obtain ⟨hf, hi, hl, hr⟩ := command_4_arms mcycle w
  have hlen := intr_message3_length
  obtain ⟨w1, hd, hf1, _, hidx, hl1, hr1⟩ :=
    drive_in_flight ndebug intr_message3
      (u54_2_loop_iteration mcycle (uart2_rx_handler [52] w)).thr accepts _ hf (by simp [hi])
  rw [hi] at hidx hl1 hr1
  rw [hl] at hl1 hr1
  rw [hr] at hr1
  have hfull : w1.g_mss_uart2_lo.tx_idx = intr_message3.length := by
    rw [hidx]; simp; omega
  have hl2 : w1.hart3_soft_interrupt_occured =
      (if w.hart3_soft_interrupt_occured = 0 then 1 else w.hart3_soft_interrupt_occured) := by
    rw [hl1]; split_ifs <;> omega
  have hr2 : raises w1 = raises w + (if w.hart3_soft_interrupt_occured = 0 then 1 else 0) := by
    rw [hr1]; split_ifs <;> omega
  have hne : w1.hart3_soft_interrupt_occured ≠ 0 := by
    rw [hl2]; split_ifs <;> omega
  have he : w1.g_mss_uart2_lo.tx_idx = w1.g_mss_uart2_lo.tx_buff_size := by
    rw [hfull, hf1.2.1]
  rcases hsp with hn | hs
  · subst hn
    obtain ⟨w2, hfire, hu, _, hl3, hr3⟩ :=
      fire_complete_latched spurious w1 he (by rw [hfull, hlen]; decide) hne
    refine ⟨w2, by simp [transfer_4, hd, hfire], by rw [hu]; exact he, by rw [hl3, hl2],
      by rw [hr3, hr2]⟩
  · subst hs
    exact ⟨w1, by simp [transfer_4, hd, fire], he, hl2, hr2⟩

/-- Complete transfers through command `'4'`, one after the other: one raise over the
whole sequence if the latch was clear at its start, none if it was set. -/
theorem transfers_4_raises (ndebug : Bool) :
    ∀ (ts : List Transfer4) (w : World),
      (∀ t ∈ ts, intr_message3.length ≤ t.accepts.sum ∧
        (ndebug = true ∨ t.spurious = [])) →
      ∃ w1, transfers_4 ndebug ts w = Except.ok w1 ∧
        raises w1 =
          raises w + (if w.hart3_soft_interrupt_occured = 0 ∧ ts ≠ [] then 1 else 0) ∧
        (ts ≠ [] → w1.hart3_soft_interrupt_occured ≠ 0) := by
  intro ts
  induction ts with
  | nil => intro w _; exact ⟨w, rfl, by simp, by simp⟩
  | cons t ts ih =>
    intro w h
    obtain ⟨hacc, hsp⟩ := h t (List.mem_cons_self t ts)
    obtain ⟨w1, h1, _, hl1, hr1⟩ := transfer_4_raises ndebug t.mcycle t.accepts t.spurious w hacc hsp
    have hne : w1.hart3_soft_interrupt_occured ≠ 0 := by
      rw [hl1]; split_ifs <;> omega
    obtain ⟨w2, h2, hr2, hl2⟩ := ih w1 (fun u hu => h u (List.mem_cons_of_mem t hu))
    refine ⟨w2, by simp [transfers_4, h1, h2], ?_, ?_⟩
    · rw [hr2, hr1]
      simp [hne]
    · intro _
      by_cases hts : ts = []
      · subst hts
        have e : w2 = w1 := (Except.ok.inj h2).symm
        rw [e]; exact hne
      · exact hl2 hts

/-- A transfer through command `'4'` under any schedule, complete or not: the invocations
pass their checks, `tx_idx` is the number of bytes accepted so far, limited to the size of
the message, and the software interrupt of hart 3 has been raised, once, exactly when the
latch was clear and the schedule has accepted the whole message. -/
theorem command_4_drive (ndebug : Bool) (mcycle : Nat) (accepts : List Nat) (w : World) :
    ∃ w2, drive ndebug accepts (u54_2_loop_iteration mcycle (uart2_rx_handler [52] w)) =
        Except.ok w2 ∧
      w2.g_mss_uart2_lo.tx_buff_size = intr_message3.length ∧
      w2.g_mss_uart2_lo.tx_idx = min accepts.sum intr_message3.length ∧
      raises w2 =
        raises w +
          (if w.hart3_soft_interrupt_occured = 0 ∧ intr_message3.length ≤ accepts.sum
           then 1 else 0) := by
  obtain ⟨hf, hi, hl, hr⟩ := command_4_arms mcycle w
  have hlen := intr_message3_length
  obtain ⟨w2, hd, hf2, _, hidx, _, hr2⟩ :=
    drive_in_flight ndebug intr_message3
      (u54_2_loop_iteration mcycle (uart2_rx_handler [52] w)).thr accepts _ hf (by simp [hi])
  rw [hi] at hidx hr2
  rw [hl, hr] at hr2
  have hidx2 : w2.g_mss_uart2_lo.tx_idx = min accepts.sum intr_message3.length := by
    rw [hidx]; simp
  refine ⟨w2, hd, hf2.2.1, hidx2, ?_⟩
  rw [hr2, hidx2]
  split_ifs <;> omega

/-- C2, as amended.  For every sequence of transfers issued through command `'4'`, each
driven to completion by `uart2_tx_handler` and followed by any number of firings after
completion (none of them when the checks are compiled in, where such a firing stops at an
`ASSERT`), `raise_soft_interrupt(3U)` is called exactly once over the whole sequence if
the latch was clear at its start, and never if the latch was set: the latch is never
reset, so the second and every later transfer raises nothing.  The one call is made at the
completion of the first transfer: in the transfer that follows the sequence, under any
schedule `accepts`, complete or not, the call has been made exactly when the latch was
clear at the start of that transfer and the whole message has been accepted, so not by
any invocation that leaves bytes unsent. -/
theorem raise_once_since_reset (ndebug : Bool) (ts : List Transfer4) (w : World)
    (mcycle : Nat) (accepts : List Nat)
    (h : ∀ t ∈ ts, intr_message3.length ≤ t.accepts.sum ∧
      (ndebug = true ∨ t.spurious = [])) :
    ∃ w1, transfers_4 ndebug ts w = Except.ok w1 ∧
      raises w1 =
        raises w + (if w.hart3_soft_interrupt_occured = 0 ∧ ts ≠ [] then 1 else 0) ∧
      (ts ≠ [] → w1.hart3_soft_interrupt_occured ≠ 0) ∧
      ∃ w2, drive ndebug accepts (u54_2_loop_iteration mcycle (uart2_rx_handler [52] w1)) =
          Except.ok w2 ∧
        w2.g_mss_uart2_lo.tx_buff_size = intr_message3.length ∧
        w2.g_mss_uart2_lo.tx_idx = min accepts.sum intr_message3.length ∧
        raises w2 =
          raises w1 +
            (if w1.hart3_soft_interrupt_occured = 0 ∧ intr_message3.length ≤ accepts.sum
             then 1 else 0) := by
  obtain ⟨w1, h1, hr1, hl1⟩ := transfers_4_raises ndebug ts w h
  exact ⟨w1, h1, hr1, hl1, command_4_drive ndebug mcycle accepts w1⟩

set_option maxRecDepth 100000 in
/-- C2, witness.  From reset, the first transfer under the schedule 32, 32, 200: after one
invocation and after two, bytes are unsent and nothing is raised; the third invocation
completes the transfer and raises once.  Then the theorem at two complete transfers from
reset with the checks compiled out and two firings after each completion, followed by a
third transfer of which 32 bytes are accepted. -/
theorem raise_once_since_reset_witness :
    (Option.map (fun w => (raises w, w.g_mss_uart2_lo.tx_idx, invocations w))
        (drive false [32]
          (u54_2_loop_iteration 0 (uart2_rx_handler [52] World.reset))).toOption
      = some (0, 32, 1)) ∧
    (Option.map (fun w => (raises w, w.g_mss_uart2_lo.tx_idx, invocations w))
        (drive false [32, 32]
          (u54_2_loop_iteration 0 (uart2_rx_handler [52] World.reset))).toOption
      = some (0, 64, 2)) ∧
    (Option.map (fun w => (raises w, w.g_mss_uart2_lo.tx_idx, invocations w))
        (drive false [32, 32, 200]
          (u54_2_loop_iteration 0 (uart2_rx_handler [52] World.reset))).toOption
      = some (1, 146, 3)) ∧
    (∀ t ∈ [Transfer4.mk 0 [146] [0, 0], Transfer4.mk 7 [146] [0, 0]],
      intr_message3.length ≤ t.accepts.sum ∧ (true = true ∨ t.spurious = [])) ∧
    ∃ w1, transfers_4 true [Transfer4.mk 0 [146] [0, 0], Transfer4.mk 7 [146] [0, 0]]
        World.reset = Except.ok w1 ∧
      raises w1 =
        raises World.reset +
          (if World.reset.hart3_soft_interrupt_occured = 0 ∧
              [Transfer4.mk 0 [146] [0, 0], Transfer4.mk 7 [146] [0, 0]] ≠ [] then 1 else 0) ∧
      ([Transfer4.mk 0 [146] [0, 0], Transfer4.mk 7 [146] [0, 0]] ≠ [] →
        w1.hart3_soft_interrupt_occured ≠ 0) ∧
      ∃ w2, drive true [32] (u54_2_loop_iteration 9 (uart2_rx_handler [52] w1)) =
          Except.ok w2 ∧
        w2.g_mss_uart2_lo.tx_buff_size = intr_message3.length ∧
        w2.g_mss_uart2_lo.tx_idx = min [32].sum intr_message3.length ∧
        raises w2 =
          raises w1 +
            (if w1.hart3_soft_interrupt_occured = 0 ∧ intr_message3.length ≤ [32].sum
             then 1 else 0) :=
  ⟨by decide, by decide, by decide, by decide,
   raise_once_since_reset true [Transfer4.mk 0 [146] [0, 0], Transfer4.mk 7 [146] [0, 0]]
     World.reset 9 [32] (by decide)⟩

set_option maxRecDepth 100000 in
/-- C2, counterexample.  From reset, with the checks compiled in and no firing after
completion: the first transfer through command `'4'` completes and raises the software
interrupt of hart 3 once; the second transfer completes as well (`tx_idx` back at 146
after 146 new bytes) and raises nothing, the count stays at 1. -/
theorem second_transfer_raises_nothing :
    Option.map (fun w => (raises w, w.g_mss_uart2_lo.tx_idx, invocations w))
        (transfers_4 false [Transfer4.mk 0 [146] []] World.reset).toOption
      = some (1, 146, 1) ∧
    Option.map (fun w => (raises w, w.g_mss_uart2_lo.tx_idx, invocations w))
        (transfers_4 false [Transfer4.mk 0 [146] [], Transfer4.mk 0 [146] []]
          World.reset).toOption
      = some (1, 146, 2) := by
  decide

/-! ## C3: an invocation in the terminal state -/

theorem terminal_state_halts (k : Nat) (w : World)
    (he : w.g_mss_uart2_lo.tx_idx = w.g_mss_uart2_lo.tx_buff_size) :
    ∃ e, uart2_tx_handler false k w = Except.error e := by
  have h3 : decide (0 < (w.g_mss_uart2_lo.tx_buff_size + 4294967296 -
      w.g_mss_uart2_lo.tx_idx) % 4294967296) = false := by
    rw [he]; simp
  cases hA : w.g_mss_uart2_lo.tx_buffer.isSome <;>
    cases hB : decide (0 < w.g_mss_uart2_lo.tx_buff_size) <;>
    simp [uart2_tx_handler, ASSERT, hA, hB, h3]

/-- C3, as amended.  For every channel state with `tx_idx == tx_buff_size`, an invocation
of `uart2_tx_handler` that passes its checks (every invocation, when `ASSERT` is compiled
out) leaves `tx_idx`, `tx_buff_size` and `tx_buffer` unchanged and writes no byte to the
hardware, whatever the latch.  The latch is left unchanged and `raise_soft_interrupt` is
not called only when the latch is already set: with the latch clear the invocation calls
`raise_soft_interrupt(3U)` once and sets the latch to 1.  With `ASSERT` compiled in, an
invocation in the terminal state always stops at a failed check. -/
theorem terminal_state_invocation (ndebug : Bool) (k : Nat) (w : World)
    (he : w.g_mss_uart2_lo.tx_idx = w.g_mss_uart2_lo.tx_buff_size)
    (hm : w.g_mss_uart2_lo.tx_idx < 4294967296) :
    (∃ w1, uart2_tx_handler true k w = Except.ok w1) ∧
    (∃ e, uart2_tx_handler false k w = Except.error e) ∧
    ∀ w1, uart2_tx_handler ndebug k w = Except.ok w1 →
      w1.g_mss_uart2_lo = w.g_mss_uart2_lo ∧ w1.thr = w.thr ∧
      w1.hart3_soft_interrupt_occured =
        (if w.hart3_soft_interrupt_occured = 0 then 1 else w.hart3_soft_interrupt_occured) ∧
      raises w1 = raises w + (if w.hart3_soft_interrupt_occured = 0 then 1 else 0) := by
  refine ⟨⟨_, handler_ndebug k w⟩, terminal_state_halts k w he, ?_⟩
  intro w1 h
  have e := handler_eq_body ndebug k w w1 h
  subst e
  have hsub : min k ((w.g_mss_uart2_lo.tx_buff_size + 4294967296 -
      w.g_mss_uart2_lo.tx_idx) % 4294967296) = 0 := by omega
  have hu : (uart2_tx_handler_body k w).g_mss_uart2_lo = w.g_mss_uart2_lo := by
    rw [body_uart, hsub]
    have e : (w.g_mss_uart2_lo.tx_idx + 0) % 4294967296 = w.g_mss_uart2_lo.tx_idx := by omega
    rw [e]
  refine ⟨hu, ?_, ?_, ?_⟩
  · rw [body_thr, hsub]; simp
  · rw [body_latch, hu, he]; simp
  · rw [body_raises, hu, he]; simp

/-- C3, witness: the completed transfer of `"A"` with the latch set. -/
theorem terminal_state_invocation_witness :
    (complete_latch_set.g_mss_uart2_lo.tx_idx = complete_latch_set.g_mss_uart2_lo.tx_buff_size ∧
      complete_latch_set.g_mss_uart2_lo.tx_idx < 4294967296) ∧
    (∃ w1, uart2_tx_handler true 5 complete_latch_set = Except.ok w1) ∧
    (∃ e, uart2_tx_handler false 5 complete_latch_set = Except.error e) ∧
    ∀ w1, uart2_tx_handler true 5 complete_latch_set = Except.ok w1 →
      w1.g_mss_uart2_lo = complete_latch_set.g_mss_uart2_lo ∧ w1.thr = complete_latch_set.thr ∧
      w1.hart3_soft_interrupt_occured =
        (if complete_latch_set.hart3_soft_interrupt_occured = 0 then 1
          else complete_latch_set.hart3_soft_interrupt_occured) ∧
      raises w1 = raises complete_latch_set +
        (if complete_latch_set.hart3_soft_interrupt_occured = 0 then 1 else 0) :=
  ⟨by decide, terminal_state_invocation true 5 complete_latch_set (by decide) (by decide)⟩

/-- C3, counterexample.  The transfer of `"A"` is complete (`tx_idx == tx_buff_size == 1`)
and the latch is clear; with the checks compiled out, one more invocation calls
`raise_soft_interrupt(3U)` and sets the latch. -/
theorem terminal_state_latch_clear_raises :
    complete_latch_clear.g_mss_uart2_lo.tx_idx =
      complete_latch_clear.g_mss_uart2_lo.tx_buff_size ∧
    complete_latch_clear.hart3_soft_interrupt_occured = 0 ∧
    raises complete_latch_clear = 0 ∧
    Option.map (fun w => (w.hart3_soft_interrupt_occured, raises w, w.calls))
        (uart2_tx_handler true 0 complete_latch_clear).toOption
      = some (1, 1, [Call.MSS_UART_fill_tx_fifo 0, Call.raise_soft_interrupt 3]) := by
  decide

/-! ## C4: the transmit interrupt at the end of the transfer -/

/-- No invocation of `uart2_tx_handler` calls `MSS_UART_disable_irq` or changes the
interrupt enable bit: a logged disable call was logged before the invocation. -/
theorem handler_never_disables (ndebug : Bool) (k m : Nat) (w w1 : World)
    (h : uart2_tx_handler ndebug k w = Except.ok w1) :
    w1.g_mss_uart2_lo.tbe_irq_enabled = w.g_mss_uart2_lo.tbe_irq_enabled ∧
    (Call.MSS_UART_disable_irq m ∈ w1.calls → Call.MSS_UART_disable_irq m ∈ w.calls) := by
  have e := handler_eq_body ndebug k w w1 h
  subst e
  exact ⟨body_tbe_irq_enabled k w, body_disable_irq k m w⟩

/-- C4, the code at the failing input.  The transfer of `"A"` is armed and the FIFO
accepts the byte: the invocation makes `tx_idx == tx_buff_size == 1` and returns with the
transmit interrupt still enabled, having called `MSS_UART_fill_tx_fifo` and
`raise_soft_interrupt(3U)` and nothing else. -/
theorem tx_handler_returns_with_irq_enabled :
    Option.map
        (fun w => (w.g_mss_uart2_lo.tx_idx, w.g_mss_uart2_lo.tx_buff_size,
          w.g_mss_uart2_lo.tbe_irq_enabled, w.calls))
        (uart2_tx_handler false 1 (armed [65])).toOption
      = some (1, 1, true, [Call.MSS_UART_fill_tx_fifo 1, Call.raise_soft_interrupt 3]) := by
  decide

/-! ## C5: the transmit index stays within the buffer -/

/-- C5.  For every channel state with `tx_idx <= tx_buff_size` (both `uint32_t`) and every
result `k` of `MSS_UART_fill_tx_fifo` with `k` at most the bytes offered: the fill returns
`k`, the invocation completes when the checks are compiled out, and every invocation that
passes its checks ends with `tx_idx` equal to the old index plus `k`, without wrap-around,
and `tx_idx <= tx_buff_size`.  The same bound holds after any further invocations, so in
every state reachable from an armed transfer. -/
theorem tx_idx_invariant (ndebug : Bool) (k : Nat) (w : World)
    (hinv : w.g_mss_uart2_lo.tx_idx ≤ w.g_mss_uart2_lo.tx_buff_size)
    (hm : w.g_mss_uart2_lo.tx_buff_size < 4294967296)
    (hk : k ≤ w.g_mss_uart2_lo.tx_buff_size - w.g_mss_uart2_lo.tx_idx) :
    (MSS_UART_fill_tx_fifo k
        ((w.g_mss_uart2_lo.tx_buffer.getD []).drop w.g_mss_uart2_lo.tx_idx)
        ((w.g_mss_uart2_lo.tx_buff_size + 4294967296 - w.g_mss_uart2_lo.tx_idx) % 4294967296)
        w).1 = k ∧
    (∃ w1, uart2_tx_handler true k w = Except.ok w1) ∧
    (∀ w1, uart2_tx_handler ndebug k w = Except.ok w1 →
      w1.g_mss_uart2_lo.tx_buff_size = w.g_mss_uart2_lo.tx_buff_size ∧
      w1.g_mss_uart2_lo.tx_idx = w.g_mss_uart2_lo.tx_idx + k ∧
      w1.g_mss_uart2_lo.tx_idx ≤ w1.g_mss_uart2_lo.tx_buff_size) ∧
    (∀ ks, ∃ w1, fire true (k :: ks) w = Except.ok w1) ∧
    (∀ ks w1, fire ndebug (k :: ks) w = Except.ok w1 →
      w1.g_mss_uart2_lo.tx_idx ≤ w1.g_mss_uart2_lo.tx_buff_size) := by
  refine ⟨?_, ⟨_, handler_ndebug k w⟩, ?_, fun ks => fire_ndebug_ok (k :: ks) w, ?_⟩
  · simp only [MSS_UART_fill_tx_fifo]
    omega
  · intro w1 h
    have e := handler_eq_body ndebug k w w1 h
    subst e
    rw [body_tx_buff_size, body_tx_idx_le k w hinv hm]
    omega
  · intro ks w1 h
    exact (fire_tx_idx_le ndebug (k :: ks) w w1 hinv hm h).2

/-- C5, witness: the armed transfer of `"AB"`, the FIFO accepting one byte; the
invocation passes its checks and leaves `tx_idx = 1` of `tx_buff_size = 2`. -/
theorem tx_idx_invariant_witness :
    ((armed [65, 66]).g_mss_uart2_lo.tx_idx ≤ (armed [65, 66]).g_mss_uart2_lo.tx_buff_size ∧
      (armed [65, 66]).g_mss_uart2_lo.tx_buff_size < 4294967296 ∧
      1 ≤ (armed [65, 66]).g_mss_uart2_lo.tx_buff_size -
        (armed [65, 66]).g_mss_uart2_lo.tx_idx) ∧
    Option.map (fun w1 => (w1.g_mss_uart2_lo.tx_idx, w1.g_mss_uart2_lo.tx_buff_size))
        (uart2_tx_handler false 1 (armed [65, 66])).toOption = some (1, 2) ∧
    ∀ w1, uart2_tx_handler false 1 (armed [65, 66]) = Except.ok w1 →
      w1.g_mss_uart2_lo.tx_buff_size = (armed [65, 66]).g_mss_uart2_lo.tx_buff_size ∧
      w1.g_mss_uart2_lo.tx_idx = (armed [65, 66]).g_mss_uart2_lo.tx_idx + 1 ∧
      w1.g_mss_uart2_lo.tx_idx ≤ w1.g_mss_uart2_lo.tx_buff_size :=
  ⟨by decide, by decide,
   (tx_idx_invariant false 1 (armed [65, 66]) (by decide) (by decide) (by decide)).2.2.1⟩

/-! ## C6: the checks after completion -/

/-- C6, as amended.  For every channel state with a registered non-null buffer and
`tx_buff_size > 0`, with the checks compiled in: the invocation passes its three `ASSERT`
checks exactly when unsent bytes remain (`tx_idx != tx_buff_size`); at
`tx_idx == tx_buff_size` the third check, `ASSERT(0u < sub_buffer_size)`, fails, so a
firing after completion ends in the error result.  It is absorbed only when `ASSERT` is
compiled out. -/
theorem checks_pass_iff_unsent (k : Nat) (w : World) (S : List Nat)
    (hb : w.g_mss_uart2_lo.tx_buffer = some S)
    (hs : 0 < w.g_mss_uart2_lo.tx_buff_size)
    (hm : w.g_mss_uart2_lo.tx_buff_size < 4294967296)
    (hi : w.g_mss_uart2_lo.tx_idx < 4294967296) :
    (w.g_mss_uart2_lo.tx_idx ≠ w.g_mss_uart2_lo.tx_buff_size →
      uart2_tx_handler false k w = Except.ok (uart2_tx_handler_body k w)) ∧
    (w.g_mss_uart2_lo.tx_idx = w.g_mss_uart2_lo.tx_buff_size →
      uart2_tx_handler false k w = Except.error AssertFailure.sub_buffer_size_is_zero) ∧
    uart2_tx_handler true k w = Except.ok (uart2_tx_handler_body k w) := by
  refine ⟨?_, fun he => handler_complete_halts k w S hb hs hm he, handler_ndebug k w⟩
  intro hne
  have h2 : decide (0 < w.g_mss_uart2_lo.tx_buff_size) = true := by simp; omega
  have h3 : decide (0 < (w.g_mss_uart2_lo.tx_buff_size + 4294967296 -
      w.g_mss_uart2_lo.tx_idx) % 4294967296) = true := by
    simp; omega
  simp [uart2_tx_handler, hb, h2, h3, ASSERT_pass]

/-- C6, witness: the armed transfer of `"A"` passes the checks, the completed one fails
the third. -/
theorem checks_pass_iff_unsent_witness :
    ((armed [65]).g_mss_uart2_lo.tx_buffer = some [65] ∧
      0 < (armed [65]).g_mss_uart2_lo.tx_buff_size ∧
      (armed [65]).g_mss_uart2_lo.tx_buff_size < 4294967296 ∧
      (armed [65]).g_mss_uart2_lo.tx_idx < 4294967296 ∧
      (armed [65]).g_mss_uart2_lo.tx_idx ≠ (armed [65]).g_mss_uart2_lo.tx_buff_size) ∧
    uart2_tx_handler false 1 (armed [65]) = Except.ok (uart2_tx_handler_body 1 (armed [65])) :=
  ⟨by decide,
   (checks_pass_iff_unsent 1 (armed [65]) [65] rfl (by decide) (by decide) (by decide)).1
     (by decide)⟩

/-- C6, counterexample.  The transfer of `"A"` is complete, as the handler itself left
it (buffer registered, `tx_buff_size = 1`, `tx_idx = 1`, latch set); with the checks
compiled in, one more firing fails `ASSERT(0u < sub_buffer_size)`. -/
theorem firing_after_completion_fails_assert :
    complete_latch_set.g_mss_uart2_lo.tx_buffer = some [65] ∧
    complete_latch_set.g_mss_uart2_lo.tx_buff_size = 1 ∧
    complete_latch_set.g_mss_uart2_lo.tx_idx = 1 ∧
    uart2_tx_handler false 1 (armed [65]) = Except.ok complete_latch_set ∧
    uart2_tx_handler false 0 complete_latch_set =
      Except.error AssertFailure.sub_buffer_size_is_zero :=
  ⟨rfl, rfl, rfl, rfl, rfl⟩

/-! ## C7: the boot barrier -/

theorem wfi_loop_blocks :
    ∀ (evs : List HartEvent) (w : World), HartEvent.signal ∉ evs →
      w.msip.getD 2 false = false → u54_2_wfi_loop evs w = none := by
  intro evs
  induction evs with
  | nil => intro w _ _; rfl
  | cons e evs ih =>
    intro w hn hb
    cases e with
    | signal => exact absurd (List.mem_cons_self _ _) hn
    | wake =>
      simp only [u54_2_wfi_loop, hb, if_true]
      exact ih w (fun h => hn (List.mem_cons_of_mem _ h)) hb

theorem wfi_loop_pending (rest : List HartEvent) :
    ∀ (mid : List HartEvent) (w : World), HartEvent.wake ∉ mid → 2 < w.msip.length →
      w.msip.getD 2 false = true →
      ∃ w1, u54_2_wfi_loop (mid ++ HartEvent.wake :: rest) w = some (w1, rest) ∧
        w1.msip.length = w.msip.length ∧ w1.calls = w.calls ∧ w1.mie_msip = w.mie_msip := by
  intro mid
  induction mid with
  | nil =>
    intro w _ _ hb
    have hb1 : w.msip[2]?.getD false = true := by simpa using hb
    exact ⟨w, by simp [u54_2_wfi_loop, hb1], rfl, rfl, rfl⟩
  | cons e mid ih =>
    intro w hn hl _
    cases e with
    | wake => exact absurd (List.mem_cons_self _ _) hn
    | signal =>
      obtain ⟨w1, h1, h2, h3, h4⟩ := ih { w with msip := w.msip.set 2 true }
        (fun h => hn (List.mem_cons_of_mem _ h)) (by simpa using hl)
        (by simp [List.getD_eq_getElem?_getD, List.getElem?_set, hl])
      exact ⟨w1, by simpa [u54_2_wfi_loop] using h1, by simpa using h2, h3, h4⟩

theorem wfi_loop_release (mid rest : List HartEvent) :
    ∀ (pre : List HartEvent) (w : World), HartEvent.signal ∉ pre → HartEvent.wake ∉ mid →
      2 < w.msip.length → w.msip.getD 2 false = false →
      ∃ w1, u54_2_wfi_loop (pre ++ HartEvent.signal :: (mid ++ HartEvent.wake :: rest)) w =
          some (w1, rest) ∧
        w1.msip.length = w.msip.length ∧ w1.calls = w.calls ∧ w1.mie_msip = w.mie_msip := by
  intro pre
  induction pre with
  | nil =>
    intro w _ hm hl _
    obtain ⟨w1, h1, h2, h3, h4⟩ := wfi_loop_pending rest mid { w with msip := w.msip.set 2 true }
      hm (by simpa using hl) (by simp [List.getD_eq_getElem?_getD, List.getElem?_set, hl])
    exact ⟨w1, by simpa [u54_2_wfi_loop] using h1, by simpa using h2, h3, h4⟩
  | cons e pre ih =>
    intro w hn hm hl hb
    cases e with
    | signal => exact absurd (List.mem_cons_self _ _) hn
    | wake =>
      obtain ⟨w1, h1, h2⟩ := ih w (fun h => hn (List.mem_cons_of_mem _ h)) hm hl hb
      have hb1 : w.msip[2]?.getD false = false := by simpa using hb
      exact ⟨w1, by simpa [u54_2_wfi_loop, hb1] using h1, h2⟩

theorem clear_soft_interrupt_msip (w : World) :
    (clear_soft_interrupt 2 w).msip.getD 2 false = false := by
  by_cases h : 2 < w.msip.length <;> simp [clear_soft_interrupt, List.getElem?_set, h]

/-- C7, as amended.  The boot barrier of `u54_2` opens with `clear_soft_interrupt()`, so
the pending bit the hart enters with is discarded, and only a signal raised after that call
releases the barrier.  For every sequence of events after it: as long as no signal has been
raised the loop re-enters the wait at every wake, and with no signal at all the barrier is
never left, whatever the pending bit was on entry; once a signal is raised (also before
the first `wfi`) the loop leaves at the first wake that follows, the remaining events are
untouched, the pending bit is clear when the barrier is left, and a later wait with no new
signal blocks again. -/
theorem boot_barrier_release (pre mid rest : List HartEvent) (w : World)
    (hpre : HartEvent.signal ∉ pre) (hmid : HartEvent.wake ∉ mid) (hlen : 2 < w.msip.length) :
    u54_2_boot_barrier pre w = none ∧
    ∃ w1, u54_2_boot_barrier (pre ++ HartEvent.signal :: (mid ++ HartEvent.wake :: rest)) w =
        some (w1, rest) ∧
      w1.msip.getD 2 false = false ∧ w1.mie_msip = true ∧
      w1.calls = w.calls ++ [Call.clear_soft_interrupt, Call.clear_soft_interrupt] ∧
      ∀ evs, HartEvent.signal ∉ evs → u54_2_wfi_loop evs w1 = none := by
  have hb : ({ clear_soft_interrupt 2 w with mie_msip := true } : World).msip.getD 2 false
      = false := clear_soft_interrupt_msip w
  have hl : 2 < ({ clear_soft_interrupt 2 w with mie_msip := true } : World).msip.length := by
    simpa [clear_soft_interrupt] using hlen
  constructor
  · simp only [u54_2_boot_barrier]
    rw [wfi_loop_blocks pre _ hpre hb]
  · obtain ⟨w3, h1, _, h3, h4⟩ := wfi_loop_release mid rest pre _ hpre hmid hl hb
    refine ⟨clear_soft_interrupt 2 w3, ?_, clear_soft_interrupt_msip w3, ?_, ?_, ?_⟩
    · simp only [u54_2_boot_barrier]
      rw [h1]
    · simpa [clear_soft_interrupt] using h4
    · simp [clear_soft_interrupt, h3]
    · intro evs hn
      exact wfi_loop_blocks evs _ hn (clear_soft_interrupt_msip w3)

/-- C7, witness: two wakes without a signal, then a signal and the releasing wake; the
last wake is left over. -/
theorem boot_barrier_release_witness :
    (HartEvent.signal ∉ [HartEvent.wake, HartEvent.wake] ∧
      HartEvent.wake ∉ ([] : List HartEvent) ∧ 2 < World.reset.msip.length) ∧
    u54_2_boot_barrier [HartEvent.wake, HartEvent.wake] World.reset = none ∧
    ∃ w1, u54_2_boot_barrier
        ([HartEvent.wake, HartEvent.wake] ++
          HartEvent.signal :: ([] ++ HartEvent.wake :: [HartEvent.wake])) World.reset =
        some (w1, [HartEvent.wake]) ∧
      w1.msip.getD 2 false = false ∧ w1.mie_msip = true ∧
      w1.calls = World.reset.calls ++ [Call.clear_soft_interrupt, Call.clear_soft_interrupt] ∧
      ∀ evs, HartEvent.signal ∉ evs → u54_2_wfi_loop evs w1 = none :=
  ⟨by decide,
   boot_barrier_release [HartEvent.wake, HartEvent.wake] [] [HartEvent.wake] World.reset
     (by decide) (by decide) (by decide)⟩

/-- C7, counterexample.  The software interrupt of hart 2 was raised before `u54_2` was
entered, so before the wait; the barrier clears it first, and the two wakes that follow
find the bit clear: the hart is still waiting. -/
theorem signal_before_entry_is_lost :
    signalled_before_entry.msip.getD 2 false = true ∧
    u54_2_boot_barrier [HartEvent.wake, HartEvent.wake] signalled_before_entry = none := by
  decide

/-! ## C8: the main loop consumes a payload once -/

theorem digit_char_ne_zero (d : Nat) : digit_char d ≠ 0 := by
  unfold digit_char
  split <;> omega

theorem digits_aux_ne_zero (base : Nat) :
    ∀ (fuel n : Nat) (acc : List Nat), (∀ b ∈ acc, b ≠ 0) →
      ∀ b ∈ digits_aux base fuel n acc, b ≠ 0 := by
  intro fuel
  induction fuel with
  | zero => intro n acc h b hb; exact h b hb
  | succ fuel ih =>
    intro n acc h b hb
    have hacc : ∀ c ∈ digit_char (n % base) :: acc, c ≠ 0 := by
      intro c hc
      rcases List.mem_cons.mp hc with e | hc
      · rw [e]; exact digit_char_ne_zero _
      · exact h c hc
    simp only [digits_aux] at hb
    split at hb
    · exact hacc b hb
    · exact ih (n / base) _ hacc b hb

theorem fmt_ld_ne_zero (n : Nat) : ∀ b ∈ fmt_ld n, b ≠ 0 := by
  intro b hb
  simp only [fmt_ld] at hb
  split at hb
  · exact digits_aux_ne_zero 10 20 _ [] (by simp) b hb
  · rcases List.mem_cons.mp hb with e | hb
    · omega
    · exact digits_aux_ne_zero 10 20 _ [] (by simp) b hb

/-- What `sprintf` followed by `strlen` yields for a text without NUL: the length of the
text, and the text itself at the start of the destination. -/
theorem strlen_sprintf (dst text : List Nat) (h : ∀ b ∈ text, b ≠ 0) :
    strlen (sprintf dst text) = text.length ∧
    (sprintf dst text).take text.length = text := by
  have hp : ∀ a ∈ text, (fun b : Nat => b != 0) a = true := by
    intro a ha
    simpa using h a ha
  constructor
  · simp only [strlen, sprintf, List.append_assoc]
    rw [List.takeWhile_append_of_pos hp]
    simp
  · simp only [sprintf, List.append_assoc]
    exact List.take_left _ _

/-- The text that command `'0'` formats: the hart and the cycles since `mcycle_start`. -/
theorem hart_text_ne_zero (hartid delta : Nat) :
    ∀ b ∈ bytes "hart " ++ fmt_ld hartid ++ bytes ", " ++ fmt_ld delta ++
      bytes " delta_mcycle \r\n", b ≠ 0 := by
  intro b hb
  simp only [List.mem_append] at hb
  rcases hb with (((hb | hb) | hb) | hb) | hb
  · revert b; decide
  · exact fmt_ld_ne_zero _ b hb
  · revert b; decide
  · exact fmt_ld_ne_zero _ b hb
  · revert b; decide

/-- C8.  For every state with `0 < g_rx_size2 <= 16` and the 16-byte receive buffer, one
pass of the main loop of `u54_2` dispatches on the first byte of the buffered payload and
ends with `g_rx_size2 == 0`, the receive buffer as it was.  The calls it makes are those
of the branch of the switch that the byte selects: `'0'` sends the formatted hart and
cycle count by the polled method, `'1'` sends the menu by the interrupt method, `'2'`
sends `polled_message2` by the polled method, `'3'` sends `intr_message2` by the interrupt
method, `'4'` registers `uart2_tx_handler` and sends `intr_message3` by the interrupt
method, and any other byte echoes the payload, the first `g_rx_size2` bytes of
`g_rx_buff2`, by the polled method; each array is sent over its `sizeof`.  A second pass
with no receive interrupt in between makes no call and changes no state. -/
theorem consume_once (mcycle mcycle2 : Nat) (w : World) (h : 0 < w.g_rx_size2)
    (hsize : w.g_rx_size2 ≤ 16) (hbuf : w.g_rx_buff2.length = 16) :
    (u54_2_loop_iteration mcycle w).g_rx_size2 = 0 ∧
    (u54_2_loop_iteration mcycle w).g_rx_buff2 = w.g_rx_buff2 ∧
    (w.g_rx_buff2.getD 0 0 = 48 →
      (u54_2_loop_iteration mcycle w).calls =
        w.calls ++ [Call.MSS_UART_polled_tx
          (bytes "hart " ++ fmt_ld w.hartid ++ bytes ", " ++
            fmt_ld ((mcycle % 18446744073709551616 + 18446744073709551616 - w.mcycle_start) %
              18446744073709551616) ++
            bytes " delta_mcycle \r\n")]) ∧
    (w.g_rx_buff2.getD 0 0 = 49 →
      (u54_2_loop_iteration mcycle w).calls = w.calls ++ [Call.MSS_UART_irq_tx g_message5] ∧
      (u54_2_loop_iteration mcycle w).g_mss_uart2_lo.tx_buffer = some g_message5 ∧
      (u54_2_loop_iteration mcycle w).g_mss_uart2_lo.tx_buff_size = g_message5.length ∧
      (u54_2_loop_iteration mcycle w).g_mss_uart2_lo.tx_idx = 0) ∧
    (w.g_rx_buff2.getD 0 0 = 50 →
      (u54_2_loop_iteration mcycle w).calls =
        w.calls ++ [Call.MSS_UART_polled_tx polled_message2]) ∧
    (w.g_rx_buff2.getD 0 0 = 51 →
      (u54_2_loop_iteration mcycle w).calls = w.calls ++ [Call.MSS_UART_irq_tx intr_message2] ∧
      (u54_2_loop_iteration mcycle w).g_mss_uart2_lo.tx_buffer = some intr_message2 ∧
      (u54_2_loop_iteration mcycle w).g_mss_uart2_lo.tx_buff_size = intr_message2.length ∧
      (u54_2_loop_iteration mcycle w).g_mss_uart2_lo.tx_idx = 0) ∧
    (w.g_rx_buff2.getD 0 0 = 52 →
      (u54_2_loop_iteration mcycle w).calls =
        w.calls ++ [Call.MSS_UART_set_tx_handler, Call.MSS_UART_irq_tx intr_message3] ∧
      (u54_2_loop_iteration mcycle w).g_mss_uart2_lo.tx_handler = TxHandler.uart2_tx_handler ∧
      (u54_2_loop_iteration mcycle w).g_mss_uart2_lo.tx_buffer = some intr_message3 ∧
      (u54_2_loop_iteration mcycle w).g_mss_uart2_lo.tx_buff_size = intr_message3.length ∧
      (u54_2_loop_iteration mcycle w).g_mss_uart2_lo.tx_idx = 0) ∧
    ((w.g_rx_buff2.getD 0 0 < 48 ∨ 52 < w.g_rx_buff2.getD 0 0) →
      (u54_2_loop_iteration mcycle w).calls =
        w.calls ++ [Call.MSS_UART_polled_tx (w.g_rx_buff2.take w.g_rx_size2)] ∧
      (w.g_rx_buff2.take w.g_rx_size2).length = w.g_rx_size2) ∧
    (∃ extra, (u54_2_loop_iteration mcycle w).calls = w.calls ++ extra ∧
      extra.countP Call.is_transmit = 1) ∧
    u54_2_loop_iteration mcycle2 (u54_2_loop_iteration mcycle w) =
      u54_2_loop_iteration mcycle w := by
  have h0 : (u54_2_loop_iteration mcycle w).g_rx_size2 = 0 := by
    simp only [u54_2_loop_iteration, if_pos h]
  refine ⟨h0, ?_, ?_, ?_, ?_, ?_, ?_, ?_, ?_, ?_⟩
  · simp only [u54_2_loop_iteration, if_pos h]
    split <;> rfl
  · intro hb
    obtain ⟨h1, h2⟩ := strlen_sprintf w.info_string2 _
      (hart_text_ne_zero w.hartid
        ((mcycle % 18446744073709551616 + 18446744073709551616 - w.mcycle_start) %
          18446744073709551616))
    simp only [u54_2_loop_iteration, if_pos h, hb, MSS_UART_polled_tx]
    rw [h1, h2]
  · intro hb
    simp only [u54_2_loop_iteration, if_pos h, hb, MSS_UART_irq_tx, List.take_length]
    refine ⟨?_, ?_, ?_, ?_⟩ <;> first | rfl | trivial
  · intro hb
    simp only [u54_2_loop_iteration, if_pos h, hb, MSS_UART_polled_tx, List.take_length]
  · intro hb
    simp only [u54_2_loop_iteration, if_pos h, hb, MSS_UART_irq_tx, List.take_length]
    refine ⟨?_, ?_, ?_, ?_⟩ <;> first | rfl | trivial
  · intro hb
    simp only [u54_2_loop_iteration, if_pos h, hb, MSS_UART_irq_tx, MSS_UART_set_tx_handler,
      List.take_length]
    refine ⟨?_, ?_, ?_, ?_, ?_⟩ <;> first | rfl | trivial | simp
  · intro hc
    constructor
    · simp only [u54_2_loop_iteration, if_pos h]
      split
      · omega
      · omega
      · omega
      · omega
      · omega
      · rfl
    · rw [List.length_take]; omega
  · simp only [u54_2_loop_iteration, if_pos h]
    split
    · exact ⟨_, rfl, rfl⟩
    · exact ⟨_, rfl, rfl⟩
    · exact ⟨_, rfl, rfl⟩
    · exact ⟨_, rfl, rfl⟩
    · exact ⟨[Call.MSS_UART_set_tx_handler,
        Call.MSS_UART_irq_tx (intr_message3.take intr_message3.length)],
        by simp [MSS_UART_irq_tx, MSS_UART_set_tx_handler], rfl⟩
    · exact ⟨_, rfl, rfl⟩
  · have hn : ¬ 0 < (u54_2_loop_iteration mcycle w).g_rx_size2 := by omega
    generalize u54_2_loop_iteration mcycle w = w1 at hn
    simp only [u54_2_loop_iteration, if_neg hn]

set_option maxRecDepth 100000 in
/-- C8, witness.  Evaluated: the unread payload `"9"` is no command, so the pass echoes
it by the polled method; the commands `'0'` to `'4'` make the calls of their branches;
each of the six branches, taken by `'0'` to `'4'` and by `'9'`, makes one transmit call
and clears the counter.  Then the theorem at the unread payload `"9"`. -/
theorem consume_once_witness :
    (0 < unread_9.g_rx_size2 ∧ unread_9.g_rx_size2 ≤ 16 ∧ unread_9.g_rx_buff2.length = 16) ∧
    (u54_2_loop_iteration 0 unread_9).calls = [Call.MSS_UART_polled_tx [57]] ∧
    (u54_2_loop_iteration 0
        { unread_9 with g_rx_buff2 := 48 :: List.replicate 15 0 }).calls =
      [Call.MSS_UART_polled_tx (bytes "hart 2, 0 delta_mcycle \r\n")] ∧
    (u54_2_loop_iteration 0
        { unread_9 with g_rx_buff2 := 49 :: List.replicate 15 0 }).calls =
      [Call.MSS_UART_irq_tx g_message5] ∧
    (u54_2_loop_iteration 0
        { unread_9 with g_rx_buff2 := 50 :: List.replicate 15 0 }).calls =
      [Call.MSS_UART_polled_tx polled_message2] ∧
    (u54_2_loop_iteration 0
        { unread_9 with g_rx_buff2 := 51 :: List.replicate 15 0 }).calls =
      [Call.MSS_UART_irq_tx intr_message2] ∧
    (u54_2_loop_iteration 0
        { unread_9 with g_rx_buff2 := 52 :: List.replicate 15 0 }).calls =
      [Call.MSS_UART_set_tx_handler, Call.MSS_UART_irq_tx intr_message3] ∧
    (∀ b ∈ [48, 49, 50, 51, 52, 57],
      (u54_2_loop_iteration 0
          { unread_9 with g_rx_buff2 := b :: List.replicate 15 0 }).g_rx_size2 = 0 ∧
      (u54_2_loop_iteration 0
          { unread_9 with g_rx_buff2 := b :: List.replicate 15 0 }).calls.countP
        Call.is_transmit = 1) ∧
    ((u54_2_loop_iteration 0 unread_9).g_rx_size2 = 0 ∧
      (u54_2_loop_iteration 0 unread_9).g_rx_buff2 = unread_9.g_rx_buff2) ∧
    ((unread_9.g_rx_buff2.getD 0 0 < 48 ∨ 52 < unread_9.g_rx_buff2.getD 0 0) →
      (u54_2_loop_iteration 0 unread_9).calls =
        unread_9.calls ++ [Call.MSS_UART_polled_tx (unread_9.g_rx_buff2.take unread_9.g_rx_size2)] ∧
      (unread_9.g_rx_buff2.take unread_9.g_rx_size2).length = unread_9.g_rx_size2) ∧
    u54_2_loop_iteration 1 (u54_2_loop_iteration 0 unread_9) =
      u54_2_loop_iteration 0 unread_9 :=
  ⟨by decide, by decide, by decide, by decide, by decide, by decide, by decide, by decide,
   ⟨(consume_once 0 1 unread_9 (by decide) (by decide) (by decide)).1,
    (consume_once 0 1 unread_9 (by decide) (by decide) (by decide)).2.1⟩,
   (consume_once 0 1 unread_9 (by decide) (by decide) (by decide)).2.2.2.2.2.2.2.1,
   (consume_once 0 1 unread_9 (by decide) (by decide) (by decide)).2.2.2.2.2.2.2.2.2⟩

/-! ## C9: the receive handler overwrites the buffer and records the count -/

/-- C9.  For every prior content of `g_rx_buff2`, every prior value of `g_rx_size2` and
every content of the hardware receive FIFO, `uart2_rx_handler` leaves the first `n` bytes
of `g_rx_buff2` equal to the first `n` bytes drained, where `n` is the number of bytes in
the FIFO limited to 16, leaves the buffer untouched past them, and sets `g_rx_size2` to
`n`: the 8-bit counter does not truncate.  In particular `d` with at most 16 bytes is
stored whole and counted whole. -/
theorem rx_overwrites_and_counts (rx_fifo : List Nat) (w : World) :
    (uart2_rx_handler rx_fifo w).g_rx_size2 = min rx_fifo.length 16 ∧
    (uart2_rx_handler rx_fifo w).g_rx_buff2.take (min rx_fifo.length 16) =
      rx_fifo.take (min rx_fifo.length 16) ∧
    (uart2_rx_handler rx_fifo w).g_rx_buff2.drop (min rx_fifo.length 16) =
      w.g_rx_buff2.drop (min rx_fifo.length 16) ∧
    (rx_fifo.length ≤ 16 →
      (uart2_rx_handler rx_fifo w).g_rx_size2 = rx_fifo.length ∧
      (uart2_rx_handler rx_fifo w).g_rx_buff2.take rx_fifo.length = rx_fifo) := by
  have hsz : (uart2_rx_handler rx_fifo w).g_rx_size2 = min rx_fifo.length 16 := by
    simp only [uart2_rx_handler, MSS_UART_get_rx, MSS_UART_polled_tx, RX_BUFF_SIZE]
    omega
  have hbuf : (uart2_rx_handler rx_fifo w).g_rx_buff2 =
      rx_fifo.take (min rx_fifo.length 16) ++ w.g_rx_buff2.drop (min rx_fifo.length 16) := by
    simp only [uart2_rx_handler, MSS_UART_get_rx, MSS_UART_polled_tx, RX_BUFF_SIZE]
  have hlen : (rx_fifo.take (min rx_fifo.length 16)).length = min rx_fifo.length 16 := by
    rw [List.length_take]; omega
  refine ⟨hsz, ?_, ?_, ?_⟩
  · rw [hbuf, List.take_append_of_le_length (by omega), List.take_of_length_le (by omega)]
  · rw [hbuf, List.drop_append_of_le_length (by omega), List.drop_of_length_le (by omega)]
    simp
  · intro hle
    have e : min rx_fifo.length 16 = rx_fifo.length := by omega
    rw [hsz, hbuf, e, List.take_length]
    exact ⟨rfl, by simp⟩

/-- C9, the scenario of the specification: the unread payload `"9"` is pending with the
counter at 1 and the interrupt delivers `"2"`; afterwards the buffer starts with `"2"`,
the rest of it is as before, and the counter is 1. -/
theorem rx_overwrites_and_counts_witness :
    (unread_9.g_rx_buff2.take 1 = [57] ∧ unread_9.g_rx_size2 = 1) ∧
    (uart2_rx_handler [50] unread_9).g_rx_buff2 = 50 :: List.replicate 15 0 ∧
    ([50].length ≤ 16 →
      (uart2_rx_handler [50] unread_9).g_rx_size2 = [50].length ∧
      (uart2_rx_handler [50] unread_9).g_rx_buff2.take [50].length = [50]) :=
  ⟨by decide, by decide, (rx_overwrites_and_counts [50] unread_9).2.2.2⟩

/-! ## C10: the software-interrupt handlers -/

/-- C10, as amended.  For every prior counter value, one invocation of
`Software_h2_IRQHandler` leaves `count_sw_ints_h2` at the old value plus one modulo 2^32
and changes nothing else; likewise `Software_h1_IRQHandler` and `count_sw_ints_h1`.  In
particular neither handler clears the software-interrupt pending bit of any hart: the
pending bits are as they were. -/
theorem software_irq_handlers (w : World) :
    (Software_h2_IRQHandler w).count_sw_ints_h2 = (w.count_sw_ints_h2 + 1) % 4294967296 ∧
    { Software_h2_IRQHandler w with count_sw_ints_h2 := w.count_sw_ints_h2 } = w ∧
    (Software_h2_IRQHandler w).msip = w.msip ∧
    (Software_h1_IRQHandler w).count_sw_ints_h1 = (w.count_sw_ints_h1 + 1) % 4294967296 ∧
    { Software_h1_IRQHandler w with count_sw_ints_h1 := w.count_sw_ints_h1 } = w ∧
    (Software_h1_IRQHandler w).msip = w.msip :=
  ⟨rfl, rfl, rfl, rfl, rfl, rfl⟩

/-- C10, counterexample.  The software interrupt of hart 2 is pending and the counter is
at 0; after `Software_h2_IRQHandler` the counter is 1 and the interrupt is still
pending. -/
theorem software_irq_stays_pending :
    signalled_before_entry.msip.getD 2 false = true ∧
    signalled_before_entry.count_sw_ints_h2 = 0 ∧
    (Software_h2_IRQHandler signalled_before_entry).count_sw_ints_h2 = 1 ∧
    (Software_h2_IRQHandler signalled_before_entry).msip.getD 2 false = true := by
  decide

end MMUART
